import Mathlib

/-!
Verification of the CVData entry-merging core (`src/DataItems.py`) and the
implied-list expansion front door (`dynamicdl/parsing/impliedlist.py`).

The Python classes are shallowly embedded: the token-class hierarchy becomes
the closed enumeration `TokenKind`; Python values that flow through the code
become `PyVal`; a `DataEntry`'s `data` dict (whose stored values are either a
single `DataItem` or, after Redundant-Storage promotion, a Python list of
them) becomes an insertion-ordered association list of `EntryVal`; mutation
is explicit state passing, and each method that can raise returns its final
state paired with an optional error.  Python exceptions are collected in
`PyErr`: the AssertionError of `DataEntry.merge` / `apply_tokens` is the
spec's ConflictError, the AssertionError of `DataItem.__init__` the spec's
ValidationError, the ValueError of `apply_pairing` the spec's
InvalidOperationError, and `KeyError` / `AttributeError` model the raw
dictionary / attribute failures the interpreter itself would raise.
-/

/-- The closed hierarchy of `_IdentifierToken` subclasses in `DataItems.py`.
`filename` subclasses `unique` in the source (`_FilenameToken(_UniqueToken)`),
which is captured by `TokenKind.isUnique` below; `redundantStorage`
subclasses `storage`. -/
inductive TokenKind
  | storage
  | redundantStorage
  | unique
  | wildcard
  | filename
  | quantity
  deriving DecidableEq, Repr

/-- Embeds Python's `isinstance(token_type, _UniqueToken)`: true for the
`_UniqueToken` class itself and its subclass `_FilenameToken`. -/
def TokenKind.isUnique : TokenKind → Bool
  | .unique => true
  | .filename => true
  | _ => false

/-- Embeds Python's `isinstance(token_type, _RedundantStorageToken)`. -/
def TokenKind.isRedundant : TokenKind → Bool
  | .redundantStorage => true
  | _ => false

/-- The Python values the embedded code lets flow through item values and
datasets: integers, floats (whose payload is never inspected by the embedded
code, so it is not carried), strings, `None`, and lists. -/
inductive PyVal
  | vInt (n : Int)
  | vStr (s : String)
  | vFloat
  | vNone
  | vList (elems : List PyVal)

/- Python `==` on `PyVal` (cross-type comparisons are false, lists compare
elementwise), written as two mutually recursive functions over the nested
inductive. -/
mutual
def pvBeq : PyVal → PyVal → Bool
  | .vInt a, .vInt b => a == b
  | .vStr a, .vStr b => a == b
  | .vFloat, .vFloat => true
  | .vNone, .vNone => true
  | .vList xs, .vList ys => pvListBeq xs ys
  | _, _ => false
def pvListBeq : List PyVal → List PyVal → Bool
  | [], [] => true
  | x :: xs, y :: ys => pvBeq x y && pvListBeq xs ys
  | _, _ => false
end

/-- `DataType`: a label (`desc`) together with its token capability.  The
source's `DataType.__eq__` compares `desc` alone; that equality is `dtEq`. -/
structure DataType where
  desc : String
  token_type : TokenKind

/-- `DataType.__eq__` from the source: same class, equal `desc`. -/
def dtEq (a b : DataType) : Bool := a.desc == b.desc

/- The fixed `DataTypes` registry, one definition per class attribute, in
declaration order of `DataItems.py` lines 137-151. -/
namespace DataTypes

def IMAGE_SET : DataType := ⟨"IMAGE_SET", .redundantStorage⟩

def IMAGE_SET_ID : DataType := ⟨"IMAGE_SET_ID", .redundantStorage⟩

def ABSOLUTE_FILE : DataType := ⟨"ABSOLUTE_FILE", .filename⟩

def RELATIVE_FILE : DataType := ⟨"RELATIVE_FILE", .filename⟩

def IMAGE_NAME : DataType := ⟨"IMAGE_NAME", .unique⟩

def IMAGE_ID : DataType := ⟨"IMAGE_ID", .unique⟩

def CLASS_NAME : DataType := ⟨"CLASS_NAME", .storage⟩

def CLASS_ID : DataType := ⟨"CLASS_ID", .storage⟩

def XMIN : DataType := ⟨"XMIN", .quantity⟩

def YMIN : DataType := ⟨"YMIN", .quantity⟩

def XMAX : DataType := ⟨"XMAX", .quantity⟩

def YMAX : DataType := ⟨"YMAX", .quantity⟩

def WIDTH : DataType := ⟨"WIDTH", .quantity⟩

def HEIGHT : DataType := ⟨"HEIGHT", .quantity⟩

def GENERIC : DataType := ⟨"GENERIC", .wildcard⟩

end DataTypes

/-- `vars(DataTypes)` in declaration order, restricted to the `DataType`
instances (the only class attributes). -/
def registryTypes : List DataType :=
  [DataTypes.IMAGE_SET, DataTypes.IMAGE_SET_ID, DataTypes.ABSOLUTE_FILE,
   DataTypes.RELATIVE_FILE, DataTypes.IMAGE_NAME, DataTypes.IMAGE_ID,
   DataTypes.CLASS_NAME, DataTypes.CLASS_ID, DataTypes.XMIN, DataTypes.YMIN,
   DataTypes.XMAX, DataTypes.YMAX, DataTypes.WIDTH, DataTypes.HEIGHT,
   DataTypes.GENERIC]

/-- `DataItem`: a `DataType` together with a value. -/
structure DataItem where
  delimiter : DataType
  value : PyVal

/-- `DataItem.__eq__` from the source: delimiters equal (`DataType.__eq__`,
that is by `desc`) and values equal (Python `==`). -/
def itemEq (x y : DataItem) : Bool :=
  dtEq x.delimiter y.delimiter && pvBeq x.value y.value

/-- One slot of a `DataEntry.data` dict.  The source annotates the dict as
`dict[str, DataItem]`, but the Redundant-Storage branch of `merge` /
`apply_tokens` replaces a slot by a Python list of items, so a slot is
either a single item or a list of items. -/
inductive EntryVal
  | one (item : DataItem)
  | many (items : List DataItem)

/-- Python `==` between two stored slots: `DataItem.__eq__` checks the
classes first, so an item never equals a list; lists compare elementwise. -/
def listItemEq : List DataItem → List DataItem → Bool
  | [], [] => true
  | x :: xs, y :: ys => itemEq x y && listItemEq xs ys
  | _, _ => false

/-- Python `==` on entry slots. -/
def evEq : EntryVal → EntryVal → Bool
  | .one x, .one y => itemEq x y
  | .many xs, .many ys => listItemEq xs ys
  | _, _ => false

/-- Python truthiness of a stored slot (`if value:` in `merge_lists`): an
object is truthy, a list is truthy iff nonempty. -/
def evTruthy : EntryVal → Bool
  | .one _ => true
  | .many xs => !xs.isEmpty

/-- An insertion-ordered embedding of the `data : dict[str, DataItem]`
dictionary of a `DataEntry`. -/
abbrev EntryDict := List (String × EntryVal)

/-- Dictionary lookup (`d.get(k)` / `k in d`). -/
def dget : EntryDict → String → Option EntryVal
  | [], _ => none
  | (k0, v0) :: rest, k => if k0 == k then some v0 else dget rest k

/-- Dictionary store (`d[k] = v`): an existing key keeps its position, a new
key is appended, as in a Python dict. -/
def dset : EntryDict → String → EntryVal → EntryDict
  | [], k, v => [(k, v)]
  | (k0, v0) :: rest, k, v =>
    if k0 == k then (k0, v) :: rest else (k0, v0) :: dset rest k v

/-- Modelled from the spec: the helper `union` imported from `src/_utils`
(whose file is not part of the sources) wraps a non-list value into a
one-element list and leaves lists unchanged; the spec describes its use as
promote the stored value into a sequence if it is not one already. -/
def unionEV : EntryVal → List DataItem
  | .one it => [it]
  | .many xs => xs

/-- `DataEntry`: the derived `unique` flag and the `data` dict. -/
structure DataEntry where
  unique : Bool
  data : EntryDict

/-- `DataEntry.__init__`: the flag is `any(isinstance(..., _UniqueToken))`
over the constructor items, and the dict maps each item's `desc` to the
item, a later duplicate label overwriting an earlier one. -/
def mkDataEntry (items : List DataItem) : DataEntry :=
  { unique := items.any fun it => it.delimiter.token_type.isUnique,
    data := items.foldl (fun m it => dset m it.delimiter.desc (.one it)) [] }

/-- The exceptions the embedded code raises. -/
inductive PyErr
  | conflict (existing : EntryVal) (incoming : DataItem)
  | validation (dt : DataType) (v : PyVal)
  | keyMissing (k : String)
  | attrMissing
  | invalidOp
  | datasetErr (kind : String) (path : List String) (got : String)

/-- Phase 1 of `DataEntry.merge` (lines 196-199): walk `other.data` in
order; each slot's `item.delimiter` is evaluated (an AttributeError if the
slot is a promoted list), and for Unique-kind items the assertion
`desc not in self.data or self.data[desc] == other.data[desc]` must hold,
else the ConflictError naming both values is raised. -/
def checkFields (s : EntryDict) : EntryDict → Option PyErr
  | [] => none
  | (d, v) :: rest =>
    match v with
    | .many _ => some .attrMissing
    | .one item =>
      if item.delimiter.token_type.isUnique then
        match dget s d with
        | none => checkFields s rest
        | some sv =>
          if evEq sv (.one item) then checkFields s rest
          else some (.conflict sv item)
      else checkFields s rest

/-- Phase 2 of `DataEntry.merge` (lines 201-207): insert absent fields;
for a present field whose incoming item is Redundant-Storage, promote the
stored slot with `union` and append the incoming item; any other present
field is left unchanged.  Returns the partially updated dict together with
the error, if one is raised mid-loop. -/
def mergeApply (s : EntryDict) : EntryDict → EntryDict × Option PyErr
  | [] => (s, none)
  | (d, v) :: rest =>
    match dget s d with
    | none => mergeApply (dset s d v) rest
    | some old =>
      match v with
      | .many _ => (s, some .attrMissing)
      | .one item =>
        if item.delimiter.token_type.isRedundant then
          mergeApply (dset s d (.many (unionEV old ++ [item]))) rest
        else mergeApply s rest

/-- `DataEntry.merge` (lines 190-207): validate first, then apply; returns
the final state of `self` together with the raised error, if any.  `other`
is never written to. -/
def DataEntry.merge (self other : DataEntry) : DataEntry × Option PyErr :=
  match checkFields self.data other.data with
  | some err => (self, some err)
  | none =>
    match mergeApply self.data other.data with
    | (d, err) => ({ self with data := d }, err)

/-- Check phase of `DataEntry.apply_tokens` (lines 216-221): for every item
`delim = item.delimiter` is evaluated (AttributeError on a list), and for
Unique-kind items the assertion `self.data[delim.desc] == item` is run.
Unlike `merge`, the lookup `self.data[delim.desc]` has no absence guard, so
an absent field raises a KeyError before anything is applied. -/
def tokensCheck (s : EntryDict) : List EntryVal → Option PyErr
  | [] => none
  | .many _ :: _ => some .attrMissing
  | .one item :: rest =>
    if item.delimiter.token_type.isUnique then
      match dget s item.delimiter.desc with
      | none => some (.keyMissing item.delimiter.desc)
      | some sv =>
        if evEq sv (.one item) then tokensCheck s rest
        else some (.conflict sv item)
    else tokensCheck s rest

/-- Apply phase of `DataEntry.apply_tokens` (lines 222-229): same per-item
policy as phase 2 of `merge`. -/
def tokensApply (s : EntryDict) : List EntryVal → EntryDict × Option PyErr
  | [] => (s, none)
  | .many _ :: _ => (s, some .attrMissing)
  | .one item :: rest =>
    match dget s item.delimiter.desc with
    | none => tokensApply (dset s item.delimiter.desc (.one item)) rest
    | some old =>
      if item.delimiter.token_type.isRedundant then
        tokensApply
          (dset s item.delimiter.desc (.many (unionEV old ++ [item]))) rest
      else tokensApply s rest

/-- `DataEntry.apply_tokens` (lines 209-229).  The argument is the list of
values handed in by the caller; `apply_pairing` passes `self.data.values()`,
whose elements may be promoted lists, hence `List EntryVal`. -/
def DataEntry.apply_tokens (self : DataEntry) (items : List EntryVal) :
    DataEntry × Option PyErr :=
  match tokensCheck self.data items with
  | some err => (self, some err)
  | none =>
    match tokensApply self.data items with
    | (d, err) => ({ self with data := d }, err)

/-- The stored slots of an entry, in insertion order
(`list(self.data.values())`). -/
def entryVals (e : DataEntry) : List EntryVal := e.data.map (fun p => p.2)

/-- The loop of `DataEntry.apply_pairing` (lines 240-242): for each
candidate, if any stored value of `self` compares `==` equal to a stored
value of the candidate, broadcast `list(self.data.values())` onto the
candidate with `apply_tokens`.  An exception from `apply_tokens` aborts the
loop, leaving the remaining candidates untouched. -/
def pairLoop (vals : List EntryVal) : List DataEntry →
    List DataEntry × Option PyErr
  | [] => ([], none)
  | e :: rest =>
    if vals.any (fun it => (entryVals e).any (fun ev => evEq it ev)) then
      match e.apply_tokens vals with
      | (e', none) =>
        match pairLoop vals rest with
        | (rs, err) => (e' :: rs, err)
      | (e', some err) => (e' :: rest, some err)
    else
      match pairLoop vals rest with
      | (rs, err) => (e :: rs, err)

/-- `DataEntry.apply_pairing` (lines 231-242): a unique-flagged entry raises
the ValueError (the spec's InvalidOperationError) before touching any
candidate; otherwise the pairing loop runs. -/
def DataEntry.apply_pairing (self : DataEntry) (entries : List DataEntry) :
    List DataEntry × Option PyErr :=
  if self.unique then (entries, some .invalidOp)
  else pairLoop (entryVals self) entries

/-- The body of `DataEntry.get_unique_ids` (lines 244-252): walk
`self.data.values()` in order, keeping the Unique-kind items; evaluating
`item.delimiter` on a promoted list raises an AttributeError. -/
def uniqueIdsFrom : EntryDict → Except PyErr (List DataItem)
  | [] => .ok []
  | (_, .many _) :: _ => .error .attrMissing
  | (_, .one item) :: rest => do
    let l ← uniqueIdsFrom rest
    .ok (if item.delimiter.token_type.isUnique then item :: l else l)

/-- `DataEntry.get_unique_ids`. -/
def DataEntry.get_unique_ids (self : DataEntry) :
    Except PyErr (List DataItem) :=
  uniqueIdsFrom self.data

/-- The Unique-kind registry types of `merge_lists` (lines 262-264):
`[var for var in vars(DataTypes).values() if isinstance(var, DataType) and
isinstance(var.token_type, _UniqueToken)]`. -/
def unique_identifiers : List DataType :=
  registryTypes.filter (fun t => t.token_type.isUnique)

/-- A per-identifier hashmap of `merge_lists`, from a stored value to the
position (in the working list `data`) of the entry holding it.  The Python
dict stores the entry object itself; since entries in `data` are only ever
updated in place, the position is a faithful stand-in for the reference. -/
abbrev ValueMap := List (PyVal × Nat)

/-- Hashmap lookup by Python `==` on the value key. -/
def vget : ValueMap → PyVal → Option Nat
  | [], _ => none
  | (k0, i0) :: rest, k => if pvBeq k0 k then some i0 else vget rest k

/-- Hashmap store: an existing key keeps its position (the later entry wins
the slot), a new key is appended. -/
def vset : ValueMap → PyVal → Nat → ValueMap
  | [], k, i => [(k, i)]
  | (k0, i0) :: rest, k, i =>
    if pvBeq k0 k then (k0, i) :: rest else (k0, i0) :: vset rest k i

/-- The per-identifier inner loop of the hashmap build (lines 268-270):
`for entry in data: value = entry.data.get(desc); if value:
hashmaps[desc][value.value] = entry`.  Evaluating `value.value` on a
promoted (truthy) list raises an AttributeError. -/
def indexEntries (desc : String) : List (Nat × DataEntry) → ValueMap →
    Except PyErr ValueMap
  | [], m => .ok m
  | (i, e) :: rest, m =>
    match dget e.data desc with
    | none => indexEntries desc rest m
    | some v =>
      if evTruthy v then
        match v with
        | .one item => indexEntries desc rest (vset m item.value i)
        | .many _ => .error .attrMissing
      else indexEntries desc rest m

/-- The hashmap build of `merge_lists` (lines 265-270), one `ValueMap` per
identifier `desc`, indexing the working list `data` (a copy of `first`). -/
def buildHashmaps (data : List (Nat × DataEntry)) :
    List DataType → Except PyErr (List (String × ValueMap))
  | [] => .ok []
  | t :: rest => do
    let m ← indexEntries t.desc data []
    let ms ← buildHashmaps data rest
    .ok ((t.desc, m) :: ms)

/-- `hashmaps[desc]`; the build puts every identifier `desc` in the map, so
the default is never reached on the embedded call path. -/
def hmget (hms : List (String × ValueMap)) (d : String) : ValueMap :=
  match hms with
  | [] => []
  | (k0, m0) :: rest => if k0 == d then m0 else hmget rest d

/-- The identifier scan for one incoming entry (lines 275-280): walk the
identifiers in order; for the first whose `value = entry.data.get(desc)` is
truthy and whose `value.value` is a key of that identifier's hashmap, stop
(the `break`) and answer that slot's position; answer `none` if no
identifier matches. -/
def scanIdentifiers (hms : List (String × ValueMap)) (e : DataEntry) :
    List DataType → Except PyErr (Option Nat)
  | [] => .ok none
  | t :: rest =>
    match dget e.data t.desc with
    | none => scanIdentifiers hms e rest
    | some v =>
      if evTruthy v then
        match v with
        | .one item =>
          match vget (hmget hms t.desc) item.value with
          | some i => .ok (some i)
          | none => scanIdentifiers hms e rest
        | .many _ => .error .attrMissing
      else scanIdentifiers hms e rest

/-- The incoming loop of `merge_lists` (lines 272-282): a matched entry is
merged into the working list's slot (`hashmaps[...][...].merge(entry)`), a
raised error propagating; an unmatched entry is appended to
`additional_data`; finally `data += additional_data`. -/
def processSecond (hms : List (String × ValueMap)) :
    List DataEntry → List DataEntry → List DataEntry →
    Except PyErr (List DataEntry)
  | data, extra, [] => .ok (data ++ extra)
  | data, extra, e :: rest => do
    match ← scanIdentifiers hms e unique_identifiers with
    | some i =>
      match data.get? i with
      | some target =>
        match target.merge e with
        | (merged, none) => processSecond hms (data.set i merged) extra rest
        | (_, some err) => .error err
      | none => .error .attrMissing
    | none => processSecond hms data (extra ++ [e]) rest

/-- `merge_lists` (lines 257-283). -/
def merge_lists (first second : List DataEntry) :
    Except PyErr (List DataEntry) := do
  let hms ← buildHashmaps first.enum unique_identifiers
  processSecond hms first [] second

/-- Digit-run tail for the numeric-string model: consume further digits,
allowing a single underscore between two digits; an underscore not followed
by a digit is left unconsumed (so the caller rejects the string). -/
def eatMore : List Char → List Char
  | [] => []
  | c :: rest =>
    if c.isDigit then eatMore rest
    else if c == '_' then
      match rest with
      | c2 :: r2 => if c2.isDigit then eatMore r2 else c :: rest
      | [] => [c]
  else c :: rest

/-- Consume a nonempty digit run; `none` when no leading digit. -/
def eatDigits : List Char → Option (List Char)
  | [] => none
  | c :: rest => if c.isDigit then some (eatMore rest) else none

/-- Exponent digits: an optional sign then a digit run consuming the rest. -/
def expDigits (cs : List Char) : Bool :=
  let cs := match cs with
    | '+' :: rest => rest
    | '-' :: rest => rest
    | _ => cs
  match eatDigits cs with
  | some [] => true
  | _ => false

/-- Optional exponent part closing the string. -/
def expOk : List Char → Bool
  | [] => true
  | 'e' :: rest => expDigits rest
  | 'E' :: rest => expDigits rest
  | _ => false

/-- Mantissa: either a digit run with an optional fraction, or a leading dot
with a mandatory fraction, followed by the optional exponent. -/
def mantOk (cs : List Char) : Bool :=
  match eatDigits cs with
  | some rest =>
    match rest with
    | '.' :: r2 =>
      match eatDigits r2 with
      | some r3 => expOk r3
      | none => expOk r2
    | _ => expOk rest
  | none =>
    match cs with
    | '.' :: r2 =>
      match eatDigits r2 with
      | some r3 => expOk r3
      | none => false
    | _ => false

/-- Modelled from the spec: Python's built-in `float(token)` conversion of a
string, which the source calls inside `try/except ValueError` and whose code
is not part of this repository; the spec reads it as the token being
numeric-parseable.  Accepts optional surrounding whitespace, an optional
sign, and then a decimal mantissa with optional exponent, or a
case-insensitive infinity or nan word. -/
def pyFloatOk (s : String) : Bool :=
  let cs := s.trim.toList
  let cs := match cs with
    | '+' :: rest => rest
    | '-' :: rest => rest
    | _ => cs
  let low := String.mk (cs.map Char.toLower)
  if low == "inf" || low == "infinity" || low == "nan" then true
  else mantOk cs

/-- `_QuantityToken.verify_token` (lines 87-99): numbers pass, strings pass
iff `float(token)` succeeds, everything else falls through to `False`. -/
def quantityVerify : PyVal → Bool
  | .vInt _ => true
  | .vFloat => true
  | .vStr s => pyFloatOk s
  | _ => false

/-- `DataType.verify_token` (lines 123-130), dispatching on the token class.
Storage, Redundant-Storage and Unique tokens record the value in their
process-wide set and answer `True` (the recording set is not needed by any
embedded claim and is not carried); the Wildcard token answers `True`; the
Filename token consults `os.path.exists`, an external filesystem call taken
as the predicate `fs`. -/
def DataType.verify_token (dt : DataType) (fs : String → Bool) (v : PyVal) :
    Bool :=
  match dt.token_type with
  | .storage => true
  | .redundantStorage => true
  | .unique => true
  | .wildcard => true
  | .filename =>
    match v with
    | .vStr s => fs s
    | _ => false
  | .quantity => quantityVerify v

/-- `DataItem.__init__` (lines 162-166): the assertion
`delimiter.verify_token(value)` guards construction; its failure is the
spec's ValidationError naming the type and the value. -/
def mkDataItem (fs : String → Bool) (dt : DataType) (v : PyVal) :
    Except PyErr DataItem :=
  if dt.verify_token fs v then .ok ⟨dt, v⟩ else .error (.validation dt v)

/-- The rendering of `type(dataset)` used in the `got=` payload of the
incorrect-type error. -/
def pyTypeName : PyVal → String
  | .vInt _ => "int"
  | .vStr _ => "str"
  | .vFloat => "float"
  | .vNone => "NoneType"
  | .vList _ => "list"

/-- `GenericList` (from `dynamicdl/parsing/genericlist.py`, only its `form`
attribute is touched by `ImpliedList.expand`). -/
structure GenericList where
  form : List PyVal

/-- `ImpliedList` (`dynamicdl/parsing/impliedlist.py` lines 10-20). -/
structure ImpliedList where
  form : GenericList
  indexer : DataType
  start : Int

/-- `dict(enumerate(xs, start))` as an ordered int-keyed mapping. -/
def enumWithStart (start : Int) (xs : List PyVal) : List (Int × PyVal) :=
  xs.enum.map (fun p => (start + (p.1 : Int), p.2))

/-- `ImpliedList.expand` (lines 22-48).  `Warnings.error('incorrect_type',
path=path, got=type(dataset))` and `expand_generics` live outside the given
sources; modelled from the spec: the former raises the DatasetError tagged
incorrect_type carrying the current path and the observed shape, and the
latter is the expansion engine, taken here as the argument `engine` so that
the error path provably performs no expansion at all. -/
def ImpliedList.expand {α : Type}
    (il : ImpliedList)
    (engine : List String → List (Int × PyVal) → List (Int × PyVal) → Nat → α)
    (path : List String) (dataset : PyVal) (depth : Nat) :
    Except PyErr α :=
  match dataset with
  | .vList xs =>
    .ok (engine path (enumWithStart il.start xs)
          (enumWithStart il.start il.form.form) depth)
  | d => .error (.datasetErr "incorrect_type" path (pyTypeName d))


/-!
Spec-side definitions.  The definitions below transcribe sentences of the
specification (and of the claims derived from it); each is compared with the
corresponding source-side definition by the theorems further down.
-/

/-- Spec side, claim C1: the identity types are exactly the registered
Unique-kind Data Types, enumerated in fixed registry declaration order (the
two Filename-kind types first, then the two plain Unique types). -/
def identityTypesSpec : List DataType :=
  [DataTypes.ABSOLUTE_FILE, DataTypes.RELATIVE_FILE,
   DataTypes.IMAGE_NAME, DataTypes.IMAGE_ID]

/-- Spec side, claim C1: the per-type lookup from value to the base entry
holding it is built by indexing only the entries of base, a later base
entry in iteration order winning a slot when two base entries share a value
for the same Unique type.  Position `i` counts base entries from `i0`;
presence of a value is the slot's truthiness, as in the source. -/
def specIndexBase (desc : String) (i0 : Nat) :
    List DataEntry → ValueMap → Except PyErr ValueMap
  | [], m => .ok m
  | e :: rest, m =>
    match dget e.data desc with
    | none => specIndexBase desc (i0 + 1) rest m
    | some v =>
      if evTruthy v then
        match v with
        | .one item => specIndexBase desc (i0 + 1) rest (vset m item.value i0)
        | .many _ => .error .attrMissing
      else specIndexBase desc (i0 + 1) rest m

/-- Spec side, claim C1: one lookup per identity type, each indexing only
the entries of base. -/
def specLookups (base : List DataEntry) :
    List DataType → Except PyErr (List (String × ValueMap))
  | [] => .ok []
  | t :: rest => do
    let m ← specIndexBase t.desc 0 base []
    let ms ← specLookups base rest
    .ok ((t.desc, m) :: ms)

/-- Spec side, claim C1: the first identity type, in order, whose value for
the entry is present in that type's lookup; scanning stops at that first
match. -/
def specFirstMatch (lks : List (String × ValueMap)) (e : DataEntry) :
    List DataType → Except PyErr (Option Nat)
  | [] => .ok none
  | t :: rest =>
    match dget e.data t.desc with
    | none => specFirstMatch lks e rest
    | some v =>
      if evTruthy v then
        match v with
        | .one item =>
          match vget (hmget lks t.desc) item.value with
          | some i => .ok (some i)
          | none => specFirstMatch lks e rest
        | .many _ => .error .attrMissing
      else specFirstMatch lks e rest

/-- Spec side, claim C1: each entry of incoming is merged into the base
entry found under its first matching identity type, and an entry matching
no identity type is appended to the result in its incoming order.  Unlike
the source, which collects unmatched entries in a separate list appended
after the loop, the transcription appends each unmatched entry to the
result immediately; merge conflicts abort the whole list-merge, as the spec
prescribes. -/
def specProcess (lks : List (String × ValueMap)) :
    List DataEntry → List DataEntry → Except PyErr (List DataEntry)
  | res, [] => .ok res
  | res, e :: rest => do
    match ← specFirstMatch lks e identityTypesSpec with
    | some i =>
      match res.get? i with
      | some target =>
        match target.merge e with
        | (merged, none) => specProcess lks (res.set i merged) rest
        | (_, some err) => .error err
      | none => .error .attrMissing
    | none => specProcess lks (res ++ [e]) rest

/-- Spec side, claim C1: the whole list-merge as the claim narrates it. -/
def merge_lists_spec (base incoming : List DataEntry) :
    Except PyErr (List DataEntry) := do
  let lks ← specLookups base identityTypesSpec
  specProcess lks base incoming

/-- Spec side: every stored slot of the dict holds a single item (no slot
has been promoted to a sequence). -/
def allSingle (m : EntryDict) : Bool :=
  m.all fun p =>
    match p.2 with
    | .one _ => true
    | .many _ => false

/-- Spec side, claims C2 and C3: one field of `b` is compatible with `a`
when it is not a Unique-kind single item, or is absent from `a`, or equals
`a`'s slot — mirroring the phase-1 assertion of `merge`. -/
def fieldCompatible (s : EntryDict) (p : String × EntryVal) : Bool :=
  match p.2 with
  | .one item =>
    !item.delimiter.token_type.isUnique ||
      (match dget s p.1 with
       | none => true
       | some sv => evEq sv p.2)
  | .many _ => true

/-- Spec side, claims C2 and C3: the two entries have no conflicting
Unique field. -/
def noUniqueConflict (a b : DataEntry) : Bool :=
  b.data.all (fieldCompatible a.data)

/-- Spec side: the operation ended in the ConflictError (distinguishing it
from every other failure). -/
def isConflictRes (r : DataEntry × Option PyErr) : Bool :=
  match r.2 with
  | some (.conflict _ _) => true
  | _ => false

/-- Spec side, claim C7: the Data Item values stored anywhere in the entry
(single slots and promoted sequences alike). -/
def storedValues (e : DataEntry) : List PyVal :=
  (e.data.map (fun p => unionEV p.2)).flatten.map (fun it => it.value)

/-- Spec side, claim C7: the two entries share a value (some Data Item
value of one appears as a value among the other's items). -/
def sharesValue (x y : DataEntry) : Bool :=
  (storedValues x).any fun v => (storedValues y).any fun w => pvBeq v w

/-- Spec side, claim C7 as amended: some stored slot of `x` compares
Python-equal (type and value) to a stored slot of `y` — the condition the
source's pairing loop actually tests. -/
def sharesItem (x y : DataEntry) : Bool :=
  (entryVals x).any fun it => (entryVals y).any fun ev => evEq it ev

/-- Spec side, claim C5: some Data Item currently contained in the entry
has a Unique-kind type. -/
def hasUniqueItem (m : EntryDict) : Bool :=
  m.any fun p => (unionEV p.2).any fun it => it.delimiter.token_type.isUnique

/-- Spec side, claim C10: `get_unique_ids` succeeded and its result lists
an item equal (in the program's own item equality) to the given one. -/
def uidsHas (e : DataEntry) (item : DataItem) : Bool :=
  match e.get_unique_ids with
  | .ok l => l.any fun x => itemEq x item
  | .error _ => false

/-- Spec side, claim C8: the value is numeric (an int or a float). -/
def isNumericVal : PyVal → Bool
  | .vInt _ => true
  | .vFloat => true
  | _ => false

/-- Spec side, claim C8: the value is a string parseable as a number. -/
def isParseableStr : PyVal → Bool
  | .vStr s => pyFloatOk s
  | _ => false

/-- Spec side, claim C8: construction succeeded. -/
def constructionOk (r : Except PyErr DataItem) : Bool :=
  match r with
  | .ok _ => true
  | .error _ => false

/-- Spec side, claim C9: the dataset argument is a Python list. -/
def isListVal : PyVal → Bool
  | .vList _ => true
  | _ => false

/-!
Concrete program states used by the counterexample and witness theorems
below.  Every entry is built with the embedded constructors and operations
only, so each state is reachable in the source program.
-/

/-- Claim C2 counterexample, `self` side: an entry with IMAGE_ID 2. -/
def entryConflictA : DataEntry := mkDataEntry [⟨DataTypes.IMAGE_ID, .vStr "2"⟩]

/-- Claim C2 counterexample, `other` side: merging two IMAGE_SET values
promotes that slot to a sequence, placed before the IMAGE_ID 1 slot. -/
def entryConflictB : DataEntry :=
  ((mkDataEntry [⟨DataTypes.IMAGE_SET, .vStr "x"⟩,
                 ⟨DataTypes.IMAGE_ID, .vStr "1"⟩]).merge
    (mkDataEntry [⟨DataTypes.IMAGE_SET, .vStr "y"⟩])).1

/-- Claim C2 witness, `self` side. -/
def entryConflictWA : DataEntry :=
  mkDataEntry [⟨DataTypes.IMAGE_ID, .vStr "1"⟩]

/-- Claim C2 witness, `other` side. -/
def entryConflictWB : DataEntry :=
  mkDataEntry [⟨DataTypes.IMAGE_ID, .vStr "2"⟩]

/-- Claim C3 counterexample, `self` side. -/
def entryPolicyA : DataEntry := mkDataEntry [⟨DataTypes.CLASS_NAME, .vStr "cat"⟩]

/-- Claim C3 counterexample, `other` side: a single promoted IMAGE_SET
slot and no Unique field at all. -/
def entryPolicyB : DataEntry :=
  ((mkDataEntry [⟨DataTypes.IMAGE_SET, .vStr "x"⟩]).merge
    (mkDataEntry [⟨DataTypes.IMAGE_SET, .vStr "y"⟩])).1

/-- Claim C3 witness, `self` side: a Storage, a Redundant-Storage and a
Unique field. -/
def entryPolicyWA : DataEntry :=
  mkDataEntry [⟨DataTypes.CLASS_NAME, .vStr "cat"⟩,
               ⟨DataTypes.IMAGE_SET, .vStr "x"⟩,
               ⟨DataTypes.IMAGE_ID, .vStr "1"⟩]

/-- Claim C3 witness, `other` side: same Unique value, clashing Storage
value, second Redundant-Storage value, and one new field. -/
def entryPolicyWB : DataEntry :=
  mkDataEntry [⟨DataTypes.CLASS_NAME, .vStr "dog"⟩,
               ⟨DataTypes.IMAGE_SET, .vStr "y"⟩,
               ⟨DataTypes.IMAGE_ID, .vStr "1"⟩,
               ⟨DataTypes.XMIN, .vStr "0"⟩]

/-- Claim C4 failing input: an entry without an IMAGE_ID field. -/
def entryTokensE : DataEntry := mkDataEntry [⟨DataTypes.CLASS_NAME, .vStr "cat"⟩]

/-- Claim C5 counterexample: constructed non-unique, then a Unique item is
merged in. -/
def entryStale : DataEntry :=
  ((mkDataEntry [⟨DataTypes.CLASS_NAME, .vStr "cat"⟩]).merge
    (mkDataEntry [⟨DataTypes.IMAGE_ID, .vStr "1"⟩])).1

/-- Claim C6 counterexample, pairing entry: non-unique flag, Unique item
inside. -/
def entryPairE : DataEntry :=
  ((mkDataEntry [⟨DataTypes.CLASS_NAME, .vStr "cat"⟩]).merge
    (mkDataEntry [⟨DataTypes.IMAGE_ID, .vStr "1"⟩])).1

/-- Claim C6 counterexample, candidate entry: shares the CLASS_NAME item
but lacks the IMAGE_ID field. -/
def entryPairC : DataEntry := mkDataEntry [⟨DataTypes.CLASS_NAME, .vStr "cat"⟩]

/-- Claim C7 counterexample, pairing entry. -/
def entryShareE : DataEntry := mkDataEntry [⟨DataTypes.CLASS_NAME, .vStr "cat"⟩]

/-- Claim C7 counterexample, candidate: carries the same value cat under a
different type, so it shares a value but no item. -/
def entryShareC : DataEntry := mkDataEntry [⟨DataTypes.IMAGE_NAME, .vStr "cat"⟩]

/-- Claim C7 witness, pairing entry: a class-name/class-id pair. -/
def entryBroadE : DataEntry :=
  mkDataEntry [⟨DataTypes.CLASS_NAME, .vStr "cat"⟩,
               ⟨DataTypes.CLASS_ID, .vStr "7"⟩]

/-- Claim C7 witness, candidate sharing the CLASS_NAME item. -/
def entryBroadC : DataEntry :=
  mkDataEntry [⟨DataTypes.IMAGE_ID, .vStr "1"⟩,
               ⟨DataTypes.CLASS_NAME, .vStr "cat"⟩]

/-- Claim C7 witness, candidate sharing nothing. -/
def entryBroadN : DataEntry :=
  mkDataEntry [⟨DataTypes.IMAGE_ID, .vStr "2"⟩]

/-- Claim C9 witness: an implied list over an empty form. -/
def ilExample : ImpliedList := ⟨⟨[]⟩, DataTypes.CLASS_ID, 0⟩

/-- Claim C9 witness: a dummy expansion engine. -/
def engineZero : List String → List (Int × PyVal) → List (Int × PyVal) →
    Nat → Nat := fun _ _ _ _ => 0

/-- Claim C10 witness, first file entry. -/
def entryFileA : DataEntry :=
  mkDataEntry [⟨DataTypes.ABSOLUTE_FILE, .vStr "a.png"⟩]

/-- Claim C10 witness, second file entry with a clashing path. -/
def entryFileB : DataEntry :=
  mkDataEntry [⟨DataTypes.ABSOLUTE_FILE, .vStr "b.png"⟩]

/-!
Helper lemmas.
-/

mutual
theorem pvBeq_refl : (v : PyVal) → pvBeq v v = true
  | .vInt _ => by simp [pvBeq]
  | .vStr _ => by simp [pvBeq]
  | .vFloat => rfl
  | .vNone => rfl
  | .vList xs => by simpa [pvBeq] using pvListBeq_refl xs
theorem pvListBeq_refl : (l : List PyVal) → pvListBeq l l = true
  | [] => rfl
  | x :: xs => by
    simp only [pvListBeq, Bool.and_eq_true]
    exact ⟨pvBeq_refl x, pvListBeq_refl xs⟩
end

theorem itemEq_refl (it : DataItem) : itemEq it it = true := by
  simp [itemEq, dtEq, pvBeq_refl]

theorem dget_dset_self (m : EntryDict) (k : String) (v : EntryVal) :
    dget (dset m k v) k = some v := by
  induction m with
  | nil => simp [dset, dget]
  | cons p rest ih =>
    obtain ⟨k0, v0⟩ := p
    by_cases h : k0 = k
    · subst h; simp [dset, dget]
    · simp [dset, dget, h, ih]

theorem dget_dset_ne (m : EntryDict) (k k' : String) (v : EntryVal)
    (h : k' ≠ k) : dget (dset m k v) k' = dget m k' := by
  have hk : ¬ k = k' := fun hh => h hh.symm
  induction m with
  | nil => simp [dset, dget, hk]
  | cons p rest ih =>
    obtain ⟨k0, v0⟩ := p
    by_cases h0 : k0 = k
    · subst h0
      simp [dset, dget, hk]
    · simp [dset, dget, h0, ih]

theorem mem_of_dget (m : EntryDict) (k : String) (v : EntryVal)
    (h : dget m k = some v) : (k, v) ∈ m := by
  induction m with
  | nil => simp [dget] at h
  | cons p rest ih =>
    obtain ⟨k0, v0⟩ := p
    by_cases h0 : k0 = k
    · subst h0
      simp [dget] at h
      simp [h]
    · simp [dget, h0] at h
      exact List.mem_cons_of_mem _ (ih h)

theorem dget_none_iff (m : EntryDict) (k : String) :
    dget m k = none ↔ k ∉ m.map Prod.fst := by
  induction m with
  | nil => simp [dget]
  | cons p rest ih =>
    obtain ⟨k0, v0⟩ := p
    by_cases h0 : k0 = k
    · subst h0; simp [dget]
    · have hkk : ¬ k = k0 := fun hh => h0 hh.symm
      simp [dget, h0, ih, hkk]

/-- Claim C4 (code bug): `apply_tokens` does not obey the two-phase contract
of `merge` for Unique items on absent fields.  In `merge` the phase-1
assertion is guarded by `desc not in self.data`; in `apply_tokens` the check
phase evaluates `self.data[delim.desc]` unguarded, so a Unique-typed item
whose field is absent from the entry raises a KeyError instead of being
inserted: on the entry holding only CLASS_NAME cat, applying the single
Unique item IMAGE_ID 1 fails with the KeyError and inserts nothing. -/
theorem apply_tokens_missing_unique_key :
    entryTokensE.apply_tokens [.one ⟨DataTypes.IMAGE_ID, .vStr "1"⟩]
      = (entryTokensE, some (.keyMissing "IMAGE_ID")) := rfl

/-- Claim C2 counterexample: two entries that both hold an IMAGE_ID field
(a Unique type) with differing values 2 and 1, yet whose merge does not
fail with the ConflictError: the promoted IMAGE_SET sequence of the right
entry is reached first by the phase-1 loop and raises an AttributeError. -/
theorem merge_conflict_attr_cex :
    dget entryConflictA.data "IMAGE_ID"
        = some (.one ⟨DataTypes.IMAGE_ID, .vStr "2"⟩)
    ∧ dget entryConflictB.data "IMAGE_ID"
        = some (.one ⟨DataTypes.IMAGE_ID, .vStr "1"⟩)
    ∧ DataTypes.IMAGE_ID.token_type.isUnique = true
    ∧ itemEq ⟨DataTypes.IMAGE_ID, .vStr "2"⟩ ⟨DataTypes.IMAGE_ID, .vStr "1"⟩
        = false
    ∧ entryConflictA.merge entryConflictB
        = (entryConflictA, some .attrMissing)
    ∧ isConflictRes (entryConflictA.merge entryConflictB) = false :=
  ⟨rfl, rfl, rfl, rfl, rfl, rfl⟩

/-- Claim C3 counterexample: the entries have no conflicting Unique field
(the right one has no Unique field at all), yet the merge does not apply
the per-field policy: the promoted IMAGE_SET slot of the right entry makes
phase 1 raise an AttributeError, and the field is not inserted. -/
theorem merge_policy_promoted_cex :
    noUniqueConflict entryPolicyA entryPolicyB = true
    ∧ entryPolicyA.merge entryPolicyB = (entryPolicyA, some .attrMissing)
    ∧ dget (entryPolicyA.merge entryPolicyB).1.data "IMAGE_SET" = none :=
  ⟨rfl, rfl, rfl⟩

/-- Claim C5 counterexample: after merging the Unique item IMAGE_ID 1 into
an entry constructed non-unique, the entry contains a Unique-kind Data
Item, but its `unique` flag — computed only by the constructor — is still
false. -/
theorem unique_flag_stale_cex :
    hasUniqueItem entryStale.data = true ∧ entryStale.unique = false :=
  ⟨rfl, rfl⟩

/-- Claim C6 counterexample: `entryPairE.unique` is false, so the claim
asserts `apply_pairing` is valid and raises no error; but the broadcast
onto a matching candidate that lacks the stale Unique field IMAGE_ID
raises a KeyError from `apply_tokens`. -/
theorem apply_pairing_error_nonunique_cex :
    entryPairE.unique = false
    ∧ entryPairE.apply_pairing [entryPairC]
        = ([entryPairC], some (.keyMissing "IMAGE_ID")) :=
  ⟨rfl, rfl⟩

/-- Claim C7 counterexample: the pairing entry (CLASS_NAME cat) and the
candidate (IMAGE_NAME cat) share the value cat, so the claim requires the
broadcast; but the source compares whole Data Items (type and value), finds
no equal item, and leaves the candidate unchanged — it still has no
CLASS_NAME field afterwards. -/
theorem apply_pairing_value_share_cex :
    sharesValue entryShareE entryShareC = true
    ∧ entryShareE.unique = false
    ∧ entryShareE.apply_pairing [entryShareC] = ([entryShareC], none)
    ∧ dget entryShareC.data "CLASS_NAME" = none :=
  ⟨rfl, rfl, rfl, rfl⟩

/-- Claim C8: constructing a `DataItem` whose type uses the Quantity token
succeeds iff the value is numeric (an int or a float) or a string parseable
as a number; any other value is rejected, construction failing with the
ValidationError naming the type and the value. -/
theorem quantity_construction_iff (fs : String → Bool) (dt : DataType)
    (v : PyVal) (hq : dt.token_type = .quantity) :
    constructionOk (mkDataItem fs dt v)
      = (isNumericVal v || isParseableStr v)
    ∧ ((isNumericVal v || isParseableStr v) = false →
        mkDataItem fs dt v = .error (.validation dt v)) := by
  cases v <;>
    simp [mkDataItem, DataType.verify_token, hq, quantityVerify,
          constructionOk, isNumericVal, isParseableStr]
  case vStr s =>
    cases hp : pyFloatOk s <;> simp [hp, constructionOk]

/-- Witness for C8 at the Quantity type XMIN and the parseable string
3.5. -/
theorem quantity_construction_iff_wit :
    constructionOk (mkDataItem (fun _ => false) DataTypes.XMIN (.vStr "3.5"))
      = (isNumericVal (.vStr "3.5") || isParseableStr (.vStr "3.5")) :=
  (quantity_construction_iff (fun _ => false) DataTypes.XMIN
    (.vStr "3.5") rfl).1

/-- Claim C9: for every dataset argument that is not a Python list,
`ImpliedList.expand` raises the DatasetError tagged incorrect_type carrying
the current path and the observed shape; the result does not depend on the
expansion engine, so no expansion is performed. -/
theorem implied_expand_incorrect_type {α : Type}
    (engine : List String → List (Int × PyVal) → List (Int × PyVal) →
      Nat → α)
    (il : ImpliedList) (path : List String) (dataset : PyVal) (depth : Nat)
    (hnl : isListVal dataset = false) :
    il.expand engine path dataset depth
      = .error (.datasetErr "incorrect_type" path (pyTypeName dataset)) := by
  cases dataset <;> first
    | rfl
    | simp [isListVal] at hnl

/-- Witness for C9 at the string dataset not-a-list. -/
theorem implied_expand_incorrect_type_wit :
    ilExample.expand engineZero ["root"] (.vStr "not-a-list") 0
      = .error (.datasetErr "incorrect_type" ["root"]
          (pyTypeName (.vStr "not-a-list"))) :=
  implied_expand_incorrect_type engineZero ilExample ["root"]
    (.vStr "not-a-list") 0 rfl

theorem merge_fst_unique (a b : DataEntry) :
    ((a.merge b).1).unique = a.unique := by
  unfold DataEntry.merge
  cases checkFields a.data b.data
  · cases mergeApply a.data b.data
    rfl
  · rfl

theorem apply_tokens_fst_unique (e : DataEntry) (vals : List EntryVal) :
    ((e.apply_tokens vals).1).unique = e.unique := by
  unfold DataEntry.apply_tokens
  cases tokensCheck e.data vals
  · cases tokensApply e.data vals
    rfl
  · rfl

theorem pairLoop_get_unique (vals : List EntryVal) :
    ∀ (es : List DataEntry) (i : Nat),
      (((pairLoop vals es).1).get? i).map DataEntry.unique
        = (es.get? i).map DataEntry.unique := by
  intro es
  induction es with
  | nil => intro i; rfl
  | cons e rest ih =>
    intro i
    unfold pairLoop
    by_cases hc : vals.any (fun it => (entryVals e).any fun ev => evEq it ev)
    · simp only [hc, if_true]
      cases hat : e.apply_tokens vals with
      | mk e' err =>
        have he' : e'.unique = e.unique := by
          have := apply_tokens_fst_unique e vals
          rw [hat] at this
          exact this
        cases err with
        | none =>
          cases hp : pairLoop vals rest with
          | mk rs err2 =>
            cases i with
            | zero => simp [he']
            | succ j =>
              have := ih j
              rw [hp] at this
              simpa using this
        | some err =>
          cases i with
          | zero => simp [he']
          | succ j => simp
    · simp only [Bool.not_eq_true] at hc
      simp only [hc, Bool.false_eq_true, if_false]
      cases hp : pairLoop vals rest with
      | mk rs err2 =>
        cases i with
        | zero => simp
        | succ j =>
          have := ih j
          rw [hp] at this
          simpa using this

/-- Claim C5 as amended: the `unique` flag is computed by the constructor
(true iff some constructor item has a Unique-kind type) and is left
unchanged by `merge`, `apply_tokens` and `apply_pairing`; no operation
recomputes it from the items the entry currently contains (the
counterexample shows the flag stale after a merge). -/
theorem unique_flag_construction_only :
    (∀ items : List DataItem,
        (mkDataEntry items).unique
          = items.any fun it => it.delimiter.token_type.isUnique)
    ∧ (∀ a b : DataEntry, ((a.merge b).1).unique = a.unique)
    ∧ (∀ (e : DataEntry) (vals : List EntryVal),
        ((e.apply_tokens vals).1).unique = e.unique)
    ∧ (∀ (e : DataEntry) (es : List DataEntry) (i : Nat),
        (((e.apply_pairing es).1).get? i).map DataEntry.unique
          = (es.get? i).map DataEntry.unique) := by
  refine ⟨fun items => rfl, merge_fst_unique, apply_tokens_fst_unique,
    fun e es i => ?_⟩
  unfold DataEntry.apply_pairing
  by_cases hu : e.unique
  · simp [hu]
  · simp only [hu, if_false]
    exact pairLoop_get_unique (entryVals e) es i

theorem tokensCheck_ne_invalidOp (s : EntryDict) :
    ∀ vals : List EntryVal, tokensCheck s vals ≠ some .invalidOp := by
  intro vals
  induction vals with
  | nil => simp [tokensCheck]
  | cons v rest ih =>
    cases v with
    | many xs => simp [tokensCheck]
    | one item =>
      unfold tokensCheck
      by_cases hu : item.delimiter.token_type.isUnique
      · simp only [hu, if_true]
        cases dget s item.delimiter.desc with
        | none => simp
        | some sv =>
          by_cases he : evEq sv (.one item)
          · simpa [he] using ih
          · simp [he]
      · simpa [hu] using ih

theorem tokensApply_ne_invalidOp (s : EntryDict) :
    ∀ vals : List EntryVal, (tokensApply s vals).2 ≠ some .invalidOp := by
  intro vals
  induction vals generalizing s with
  | nil => simp [tokensApply]
  | cons v rest ih =>
    cases v with
    | many xs => simp [tokensApply]
    | one item =>
      unfold tokensApply
      cases dget s item.delimiter.desc with
      | none => exact ih _
      | some old =>
        by_cases hr : item.delimiter.token_type.isRedundant
        · simp only [hr, if_true]
          exact ih _
        · simp only [hr, Bool.false_eq_true, if_false]
          exact ih _

theorem apply_tokens_ne_invalidOp (e : DataEntry) (vals : List EntryVal) :
    (e.apply_tokens vals).2 ≠ some .invalidOp := by
  unfold DataEntry.apply_tokens
  cases hc : tokensCheck e.data vals with
  | none =>
    cases ha : tokensApply e.data vals with
    | mk d err =>
      have := tokensApply_ne_invalidOp e.data vals
      rw [ha] at this
      simpa using this
  | some err =>
    have := tokensCheck_ne_invalidOp e.data vals
    rw [hc] at this
    simpa using this

theorem pairLoop_ne_invalidOp (vals : List EntryVal) :
    ∀ es : List DataEntry, (pairLoop vals es).2 ≠ some .invalidOp := by
  intro es
  induction es with
  | nil => simp [pairLoop]
  | cons e rest ih =>
    unfold pairLoop
    by_cases hc : vals.any (fun it => (entryVals e).any fun ev => evEq it ev)
    · simp only [hc, if_true]
      cases hat : e.apply_tokens vals with
      | mk e' err =>
        cases err with
        | none =>
          cases hp : pairLoop vals rest with
          | mk rs err2 =>
            have := ih
            rw [hp] at this
            simpa using this
        | some err =>
          have := apply_tokens_ne_invalidOp e vals
          rw [hat] at this
          simpa using this
    · simp only [Bool.not_eq_true] at hc
      simp only [hc, Bool.false_eq_true, if_false]
      cases hp : pairLoop vals rest with
      | mk rs err2 =>
        have := ih
        rw [hp] at this
        simpa using this

/-- Claim C6 as amended: `apply_pairing` fails with the
InvalidOperationError exactly when the entry's `unique` flag is true; when
the flag is false that error is never raised, but errors from the
underlying `apply_tokens` broadcasts (a KeyError or ConflictError, as in
the counterexample) may still propagate. -/
theorem apply_pairing_invalidop_iff (e : DataEntry) (es : List DataEntry) :
    (e.apply_pairing es).2 = some .invalidOp ↔ e.unique = true := by
  unfold DataEntry.apply_pairing
  by_cases hu : e.unique
  · simp [hu]
  · simp only [hu, if_false, Bool.false_eq_true, iff_false]
    simpa [hu] using pairLoop_ne_invalidOp (entryVals e) es

theorem checkFields_conflict (s : EntryDict) :
    ∀ (L : EntryDict) (d : String) (ib : DataItem) (sv0 : EntryVal),
      allSingle L = true → (d, EntryVal.one ib) ∈ L →
      ib.delimiter.token_type.isUnique = true →
      dget s d = some sv0 → evEq sv0 (.one ib) = false →
      ∃ sv item, checkFields s L = some (.conflict sv item) := by
  intro L
  induction L with
  | nil =>
    intro d ib sv0 _ hmem
    simp at hmem
  | cons p rest ih =>
    intro d ib sv0 hall hmem hu hs hne
    obtain ⟨d0, v0⟩ := p
    have hall' := hall
    simp only [allSingle, List.all_cons, Bool.and_eq_true] at hall'
    cases v0 with
    | many xs => simp at hall'
    | one it0 =>
      have hallRest : allSingle rest = true := hall'.2
      unfold checkFields
      by_cases hu0 : it0.delimiter.token_type.isUnique
      · simp only [hu0, if_true]
        cases hg : dget s d0 with
        | none =>
          rcases List.mem_cons.mp hmem with heq | hmemr
          · injection heq with h1 h2
            injection h2 with h3
            subst h1
            rw [hg] at hs
            cases hs
          · exact ih d ib sv0 hallRest hmemr hu hs hne
        | some sv =>
          by_cases he : evEq sv (.one it0) = true
          · simp only [he, if_true]
            rcases List.mem_cons.mp hmem with heq | hmemr
            · injection heq with h1 h2
              injection h2 with h3
              subst h1
              subst h3
              rw [hg] at hs
              injection hs with h4
              subst h4
              rw [he] at hne
              cases hne
            · exact ih d ib sv0 hallRest hmemr hu hs hne
          · simp only [he, if_false]
            exact ⟨sv, it0, rfl⟩
      · simp only [hu0, if_false]
        rcases List.mem_cons.mp hmem with heq | hmemr
        · injection heq with h1 h2
          injection h2 with h3
          subst h3
          rw [hu] at hu0
          cases hu0 rfl
        · exact ih d ib sv0 hallRest hmemr hu hs hne

theorem merge_conflict_general (a b : DataEntry) (d : String)
    (ia ib : DataItem)
    (hb : allSingle b.data = true)
    (ha : dget a.data d = some (.one ia))
    (hbd : dget b.data d = some (.one ib))
    (hbu : ib.delimiter.token_type.isUnique = true)
    (hne : itemEq ia ib = false) :
    (a.merge b).1 = a ∧ isConflictRes (a.merge b) = true := by
  have hmem := mem_of_dget _ _ _ hbd
  have hev : evEq (.one ia) (.one ib) = false := by simpa [evEq] using hne
  obtain ⟨sv, item, hcf⟩ :=
    checkFields_conflict a.data b.data d ib (.one ia) hb hmem hbu ha hev
  unfold DataEntry.merge
  rw [hcf]
  exact ⟨rfl, rfl⟩

/-- Claim C2 as amended: when two entries both hold a Unique-typed field
with the same label and differing values, and every field of the right
entry is a single item (no slot promoted to a sequence by an earlier
Redundant-Storage merge — the counterexample shows such a slot preempting
the check with an AttributeError), `merge` fails with the ConflictError
(whose payload names the existing and the incoming value) and the left
entry is returned unchanged; the right entry is never written to. -/
theorem merge_conflict_raises (a b : DataEntry) (d : String)
    (ia ib : DataItem)
    (hb : allSingle b.data = true)
    (ha : dget a.data d = some (.one ia))
    (hbd : dget b.data d = some (.one ib))
    (_hau : ia.delimiter.token_type.isUnique = true)
    (hbu : ib.delimiter.token_type.isUnique = true)
    (hne : itemEq ia ib = false) :
    (a.merge b).1 = a ∧ isConflictRes (a.merge b) = true :=
  merge_conflict_general a b d ia ib hb ha hbd hbu hne

/-- Witness for the amended C2 at two one-field entries with IMAGE_ID 1
and IMAGE_ID 2. -/
theorem merge_conflict_raises_wit :
    (entryConflictWA.merge entryConflictWB).1 = entryConflictWA
    ∧ isConflictRes (entryConflictWA.merge entryConflictWB) = true :=
  merge_conflict_raises entryConflictWA entryConflictWB "IMAGE_ID"
    ⟨DataTypes.IMAGE_ID, .vStr "1"⟩ ⟨DataTypes.IMAGE_ID, .vStr "2"⟩
    rfl rfl rfl rfl rfl rfl

theorem uniqueIdsFrom_ok (m : EntryDict) (hall : allSingle m = true) :
    ∃ l, uniqueIdsFrom m = .ok l
      ∧ ∀ (d : String) (item : DataItem), (d, EntryVal.one item) ∈ m →
          item.delimiter.token_type.isUnique = true →
          (l.any fun x => itemEq x item) = true := by
  induction m with
  | nil =>
    refine ⟨[], rfl, ?_⟩
    intro d item hmem
    simp at hmem
  | cons p rest ih =>
    obtain ⟨d0, v0⟩ := p
    have hall' := hall
    simp only [allSingle, List.all_cons, Bool.and_eq_true] at hall'
    cases v0 with
    | many xs => simp at hall'
    | one it0 =>
      obtain ⟨l, hok, hprop⟩ := ih hall'.2
      refine ⟨if it0.delimiter.token_type.isUnique then it0 :: l else l,
        ?_, ?_⟩
      · show (uniqueIdsFrom rest).bind _ = _
        rw [hok]
        rfl
      · intro d item hmem hu
        rcases List.mem_cons.mp hmem with heq | hmemr
        · injection heq with h1 h2
          injection h2 with h3
          subst h3
          simp [hu, itemEq_refl]
        · have hl := hprop d item hmemr hu
          by_cases hu0 : it0.delimiter.token_type.isUnique
          · simp [hu0, List.any_cons, hl]
          · simp [hu0, hl]

/-- Claim C10: Filename-typed items are treated as Unique identity items
throughout: an entry holding one is constructed with `unique` true; such an
item is listed by `get_unique_ids`; `merge` applies the Unique conflict
check to Filename-typed fields; and the identifier list of `merge_lists`
is exactly the two Filename-kind registry types followed by IMAGE_NAME and
IMAGE_ID, in that tie-break order. -/
theorem filename_unique_identity :
    (∀ items : List DataItem,
        (items.any fun it => it.delimiter.token_type == .filename) = true →
        (mkDataEntry items).unique = true)
    ∧ (∀ (e : DataEntry) (d : String) (item : DataItem),
        allSingle e.data = true →
        dget e.data d = some (.one item) →
        item.delimiter.token_type = .filename →
        uidsHas e item = true)
    ∧ (∀ (a b : DataEntry) (d : String) (ia ib : DataItem),
        allSingle b.data = true →
        dget a.data d = some (.one ia) →
        dget b.data d = some (.one ib) →
        ia.delimiter.token_type = .filename →
        ib.delimiter.token_type = .filename →
        itemEq ia ib = false →
        (a.merge b).1 = a ∧ isConflictRes (a.merge b) = true)
    ∧ unique_identifiers
        = [DataTypes.ABSOLUTE_FILE, DataTypes.RELATIVE_FILE,
           DataTypes.IMAGE_NAME, DataTypes.IMAGE_ID] := by
  refine ⟨?_, ?_, ?_, rfl⟩
  · intro items h
    show (items.any fun it => it.delimiter.token_type.isUnique) = true
    simp only [List.any_eq_true] at h ⊢
    obtain ⟨x, hx, hf⟩ := h
    refine ⟨x, hx, ?_⟩
    rw [beq_iff_eq] at hf
    rw [hf]
    rfl
  · intro e d item hall hg hfile
    obtain ⟨l, hok, hprop⟩ := uniqueIdsFrom_ok e.data hall
    have hu : item.delimiter.token_type.isUnique = true := by
      rw [hfile]; rfl
    have hl := hprop d item (mem_of_dget _ _ _ hg) hu
    simp [uidsHas, DataEntry.get_unique_ids, hok, hl]
  · intro a b d ia ib hb ha hbd haf hbf hne
    have hbu : ib.delimiter.token_type.isUnique = true := by
      rw [hbf]; rfl
    exact merge_conflict_general a b d ia ib hb ha hbd hbu hne

/-- Witness for C10 at two one-field ABSOLUTE_FILE entries. -/
theorem filename_unique_identity_wit :
    entryFileA.unique = true
    ∧ uidsHas entryFileA ⟨DataTypes.ABSOLUTE_FILE, .vStr "a.png"⟩ = true
    ∧ (entryFileA.merge entryFileB).1 = entryFileA
    ∧ isConflictRes (entryFileA.merge entryFileB) = true
    ∧ unique_identifiers
        = [DataTypes.ABSOLUTE_FILE, DataTypes.RELATIVE_FILE,
           DataTypes.IMAGE_NAME, DataTypes.IMAGE_ID] := by
  obtain ⟨h1, h2, h3, h4⟩ := filename_unique_identity
  refine ⟨h1 [⟨DataTypes.ABSOLUTE_FILE, .vStr "a.png"⟩] rfl,
    h2 entryFileA "ABSOLUTE_FILE" ⟨DataTypes.ABSOLUTE_FILE, .vStr "a.png"⟩
      rfl rfl rfl, ?_, ?_, h4⟩
  · exact (h3 entryFileA entryFileB "ABSOLUTE_FILE"
      ⟨DataTypes.ABSOLUTE_FILE, .vStr "a.png"⟩
      ⟨DataTypes.ABSOLUTE_FILE, .vStr "b.png"⟩ rfl rfl rfl rfl rfl rfl).1
  · exact (h3 entryFileA entryFileB "ABSOLUTE_FILE"
      ⟨DataTypes.ABSOLUTE_FILE, .vStr "a.png"⟩
      ⟨DataTypes.ABSOLUTE_FILE, .vStr "b.png"⟩ rfl rfl rfl rfl rfl rfl).2


theorem checkFields_none (s : EntryDict) :
    ∀ L : EntryDict, allSingle L = true →
      L.all (fieldCompatible s) = true → checkFields s L = none := by
  intro L
  induction L with
  | nil => intro _ _; rfl
  | cons p rest ih =>
    intro hall hcomp
    obtain ⟨d0, v0⟩ := p
    simp only [allSingle, List.all_cons, Bool.and_eq_true] at hall
    simp only [List.all_cons, Bool.and_eq_true] at hcomp
    cases v0 with
    | many xs => simp at hall
    | one it0 =>
      unfold checkFields
      by_cases hu0 : it0.delimiter.token_type.isUnique
      · simp only [hu0, if_true]
        have hc0 := hcomp.1
        simp only [fieldCompatible, hu0, Bool.not_true, Bool.false_or]
          at hc0
        cases hg : dget s d0 with
        | none => exact ih hall.2 hcomp.2
        | some sv =>
          rw [hg] at hc0
          have hc1 : evEq sv (EntryVal.one it0) = true := by
            simpa using hc0
          show (if evEq sv (EntryVal.one it0) = true then checkFields s rest
            else some (PyErr.conflict sv it0)) = none
          rw [if_pos hc1]
          exact ih hall.2 hcomp.2
      · simp only [hu0, if_false]
        exact ih hall.2 hcomp.2

theorem mergeApply_single_ok :
    ∀ (L : EntryDict) (s : EntryDict), allSingle L = true →
      (mergeApply s L).2 = none := by
  intro L
  induction L with
  | nil => intro s _; rfl
  | cons p rest ih =>
    intro s hall
    obtain ⟨d0, v0⟩ := p
    simp only [allSingle, List.all_cons, Bool.and_eq_true] at hall
    cases v0 with
    | many xs => simp at hall
    | one it0 =>
      unfold mergeApply
      cases dget s d0 with
      | none => exact ih _ hall.2
      | some old =>
        by_cases hr : it0.delimiter.token_type.isRedundant
        · simp only [hr, if_true]
          exact ih _ hall.2
        · simp only [hr, Bool.false_eq_true, if_false]
          exact ih _ hall.2

theorem dget_cons_none (d0 d : String) (v0 : EntryVal) (rest : EntryDict)
    (h : dget ((d0, v0) :: rest) d = none) :
    ¬ d = d0 ∧ dget rest d = none := by
  by_cases hb : d0 = d
  · subst hb; simp [dget] at h
  · have hbd : ¬ d = d0 := fun hh => hb hh.symm
    refine ⟨hbd, ?_⟩
    simpa [dget, hb] using h

theorem mergeApply_cons_absent (s : EntryDict) (d0 : String)
    (it0 : DataItem) (rest : EntryDict) (hg : dget s d0 = none) :
    mergeApply s ((d0, EntryVal.one it0) :: rest)
      = mergeApply (dset s d0 (.one it0)) rest := by
  conv_lhs => rw [mergeApply]
  rw [hg]

theorem mergeApply_cons_redundant (s : EntryDict) (d0 : String)
    (it0 : DataItem) (rest : EntryDict) (old0 : EntryVal)
    (hg : dget s d0 = some old0)
    (hr : it0.delimiter.token_type.isRedundant = true) :
    mergeApply s ((d0, EntryVal.one it0) :: rest)
      = mergeApply (dset s d0 (.many (unionEV old0 ++ [it0]))) rest := by
  conv_lhs => rw [mergeApply]
  rw [hg]
  show (if it0.delimiter.token_type.isRedundant = true then
      mergeApply (dset s d0 (.many (unionEV old0 ++ [it0]))) rest
    else mergeApply s rest) = _
  rw [if_pos hr]

theorem mergeApply_cons_keep (s : EntryDict) (d0 : String)
    (it0 : DataItem) (rest : EntryDict) (old0 : EntryVal)
    (hg : dget s d0 = some old0)
    (hr : ¬ it0.delimiter.token_type.isRedundant = true) :
    mergeApply s ((d0, EntryVal.one it0) :: rest) = mergeApply s rest := by
  conv_lhs => rw [mergeApply]
  rw [hg]
  show (if it0.delimiter.token_type.isRedundant = true then
      mergeApply (dset s d0 (.many (unionEV old0 ++ [it0]))) rest
    else mergeApply s rest) = _
  rw [if_neg hr]

theorem mergeApply_pointwise :
    ∀ (L : EntryDict) (s : EntryDict),
      allSingle L = true → (L.map Prod.fst).Nodup →
      (∀ d, dget L d = none →
        dget (mergeApply s L).1 d = dget s d)
      ∧ (∀ (d : String) (item : DataItem), (d, EntryVal.one item) ∈ L →
          (dget s d = none →
            dget (mergeApply s L).1 d = some (.one item))
          ∧ (∀ old, dget s d = some old →
              (item.delimiter.token_type.isRedundant = true →
                dget (mergeApply s L).1 d
                  = some (.many (unionEV old ++ [item])))
              ∧ (item.delimiter.token_type.isRedundant = false →
                dget (mergeApply s L).1 d = some old))) := by
  intro L
  induction L with
  | nil =>
    intro s _ _
    refine ⟨fun d _ => rfl, fun d item hmem => ?_⟩
    simp at hmem
  | cons p rest ih =>
    intro s hall hnd
    obtain ⟨d0, v0⟩ := p
    simp only [allSingle, List.all_cons, Bool.and_eq_true] at hall
    cases v0 with
    | many xs => simp at hall
    | one it0 =>
      have hallR : allSingle rest = true := hall.2
      simp only [List.map_cons, List.nodup_cons] at hnd
      have hnd0 : d0 ∉ rest.map Prod.fst := hnd.1
      have hndR := hnd.2
      have hrest0 : dget rest d0 = none := (dget_none_iff rest d0).mpr hnd0
      cases hg : dget s d0 with
      | none =>
        rw [mergeApply_cons_absent s d0 it0 rest hg]
        obtain ⟨ihA, ihB⟩ := ih (dset s d0 (.one it0)) hallR hndR
        constructor
        · intro d hdL
          obtain ⟨hne, hdR⟩ := dget_cons_none d0 d _ rest hdL
          rw [ihA d hdR]
          exact dget_dset_ne s d0 d _ hne
        · intro d item hmem
          rcases List.mem_cons.mp hmem with hhead | hmemr
          · injection hhead with h1 h2
            injection h2 with h3
            subst h1
            subst h3
            constructor
            · intro _
              rw [ihA d hrest0]
              exact dget_dset_self s d (.one item)
            · intro old hold
              rw [hg] at hold
              cases hold
          · have hdne : ¬ d = d0 := by
              intro hh
              subst hh
              exact hnd0 (List.mem_map_of_mem Prod.fst hmemr)
            have hset : dget (dset s d0 (.one it0)) d = dget s d :=
              dget_dset_ne s d0 d _ hdne
            obtain ⟨hB1, hB2⟩ := ihB d item hmemr
            constructor
            · intro hnone
              exact hB1 (by rw [hset, hnone])
            · intro old hold
              exact hB2 old (by rw [hset, hold])
      | some old0 =>
        by_cases hr : it0.delimiter.token_type.isRedundant
        · rw [mergeApply_cons_redundant s d0 it0 rest old0 hg hr]
          obtain ⟨ihA, ihB⟩ :=
            ih (dset s d0 (.many (unionEV old0 ++ [it0]))) hallR hndR
          constructor
          · intro d hdL
            obtain ⟨hne, hdR⟩ := dget_cons_none d0 d _ rest hdL
            rw [ihA d hdR]
            exact dget_dset_ne s d0 d _ hne
          · intro d item hmem
            rcases List.mem_cons.mp hmem with hhead | hmemr
            · injection hhead with h1 h2
              injection h2 with h3
              subst h1
              subst h3
              constructor
              · intro hnone
                rw [hg] at hnone
                cases hnone
              · intro old hold
                rw [hg] at hold
                injection hold with h4
                subst h4
                refine ⟨fun _ => ?_, fun hrf => ?_⟩
                · rw [ihA d hrest0]
                  exact dget_dset_self s d _
                · rw [hr] at hrf
                  cases hrf
            · have hdne : ¬ d = d0 := by
                intro hh
                subst hh
                exact hnd0 (List.mem_map_of_mem Prod.fst hmemr)
              have hset :
                  dget (dset s d0 (.many (unionEV old0 ++ [it0]))) d
                    = dget s d := dget_dset_ne s d0 d _ hdne
              obtain ⟨hB1, hB2⟩ := ihB d item hmemr
              constructor
              · intro hnone
                exact hB1 (by rw [hset, hnone])
              · intro old hold
                exact hB2 old (by rw [hset, hold])
        · rw [mergeApply_cons_keep s d0 it0 rest old0 hg hr]
          obtain ⟨ihA, ihB⟩ := ih s hallR hndR
          constructor
          · intro d hdL
            obtain ⟨_, hdR⟩ := dget_cons_none d0 d _ rest hdL
            exact ihA d hdR
          · intro d item hmem
            rcases List.mem_cons.mp hmem with hhead | hmemr
            · injection hhead with h1 h2
              injection h2 with h3
              subst h1
              subst h3
              constructor
              · intro hnone
                rw [hg] at hnone
                cases hnone
              · intro old hold
                rw [hg] at hold
                injection hold with h4
                subst h4
                refine ⟨fun hrt => ?_, fun _ => ?_⟩
                · rw [hrt] at hr
                  cases hr rfl
                · rw [ihA d hrest0]
                  exact hg
            · exact ihB d item hmemr

theorem storage_or_unique_not_redundant (k : TokenKind)
    (h : (k == TokenKind.storage || k.isUnique) = true) :
    k.isRedundant = false := by
  cases k <;> simp_all [TokenKind.isUnique, TokenKind.isRedundant]

/-- Claim C3 as amended: when the entries have no conflicting Unique field
and every field of `b` holds a single item (no slot promoted to a sequence
by an earlier Redundant-Storage merge — the counterexample shows such a
slot aborting the merge with an AttributeError before any field is
applied; `b`'s labels are pairwise distinct, as in any Python dict),
`merge` succeeds and applies the per-field policy to every field of `b`:
an absent field is inserted; a present field whose incoming item is
Storage- or Unique-typed keeps `a`'s existing value unchanged; a present
field whose incoming item is Redundant-Storage-typed is promoted to a
sequence (if not one already) with `b`'s value appended after `a`'s, so
both values are retained in merge order; fields of `a` not mentioned by
`b` are untouched. -/
theorem merge_policy_applies (a b : DataEntry)
    (hb : allSingle b.data = true)
    (hnd : (b.data.map Prod.fst).Nodup)
    (hnc : noUniqueConflict a b = true) :
    (a.merge b).2 = none
    ∧ (∀ d, dget b.data d = none →
        dget (a.merge b).1.data d = dget a.data d)
    ∧ (∀ (d : String) (item : DataItem),
        dget b.data d = some (.one item) →
        (dget a.data d = none →
          dget (a.merge b).1.data d = some (.one item))
        ∧ (∀ old, dget a.data d = some old →
            ((item.delimiter.token_type == TokenKind.storage
                || item.delimiter.token_type.isUnique) = true →
              dget (a.merge b).1.data d = some old)
            ∧ (item.delimiter.token_type.isRedundant = true →
              dget (a.merge b).1.data d
                = some (.many (unionEV old ++ [item]))))) := by
  have hcf : checkFields a.data b.data = none :=
    checkFields_none a.data b.data hb hnc
  have hmerge : a.merge b
      = ({ a with data := (mergeApply a.data b.data).1 },
         (mergeApply a.data b.data).2) := by
    unfold DataEntry.merge
    rw [hcf]
  obtain ⟨hA, hB⟩ := mergeApply_pointwise b.data a.data hb hnd
  rw [hmerge]
  refine ⟨mergeApply_single_ok b.data a.data hb, hA, ?_⟩
  intro d item hg
  obtain ⟨h1, h2⟩ := hB d item (mem_of_dget _ _ _ hg)
  refine ⟨h1, fun old hold => ?_⟩
  obtain ⟨h3, h4⟩ := h2 old hold
  exact ⟨fun hk => h4 (storage_or_unique_not_redundant _ hk), h3⟩

/-- Witness for the amended C3: merging two three-field entries keeps the
Storage value cat, accumulates the two IMAGE_SET values in order, accepts
the equal Unique IMAGE_ID, and inserts the new XMIN field. -/
theorem merge_policy_applies_wit :
    (entryPolicyWA.merge entryPolicyWB).2 = none
    ∧ dget (entryPolicyWA.merge entryPolicyWB).1.data "CLASS_NAME"
        = some (.one ⟨DataTypes.CLASS_NAME, .vStr "cat"⟩)
    ∧ dget (entryPolicyWA.merge entryPolicyWB).1.data "IMAGE_SET"
        = some (.many [⟨DataTypes.IMAGE_SET, .vStr "x"⟩,
                       ⟨DataTypes.IMAGE_SET, .vStr "y"⟩])
    ∧ dget (entryPolicyWA.merge entryPolicyWB).1.data "XMIN"
        = some (.one ⟨DataTypes.XMIN, .vStr "0"⟩) := by
  obtain ⟨hok, hunch, hfields⟩ :=
    merge_policy_applies entryPolicyWA entryPolicyWB rfl (by decide) rfl
  refine ⟨hok, ?_, ?_, ?_⟩
  · exact ((hfields "CLASS_NAME" ⟨DataTypes.CLASS_NAME, .vStr "dog"⟩
      rfl).2 (.one ⟨DataTypes.CLASS_NAME, .vStr "cat"⟩) rfl).1 rfl
  · exact ((hfields "IMAGE_SET" ⟨DataTypes.IMAGE_SET, .vStr "y"⟩
      rfl).2 (.one ⟨DataTypes.IMAGE_SET, .vStr "x"⟩) rfl).2 rfl
  · exact (hfields "XMIN" ⟨DataTypes.XMIN, .vStr "0"⟩ rfl).1 rfl

theorem pairLoop_char (vals : List EntryVal) :
    ∀ es : List DataEntry,
      ((pairLoop vals es).1).length = es.length
      ∧ ∀ (i : Nat) (c : DataEntry), es.get? i = some c →
          ((vals.any fun it => (entryVals c).any fun ev => evEq it ev)
              = false →
            ((pairLoop vals es).1).get? i = some c)
          ∧ ((vals.any fun it => (entryVals c).any fun ev => evEq it ev)
              = true →
            (pairLoop vals es).2 = none →
            ((pairLoop vals es).1).get? i
              = some (c.apply_tokens vals).1) := by
  intro es
  induction es with
  | nil =>
    refine ⟨rfl, ?_⟩
    intro i c hc
    simp at hc
  | cons e rest ih =>
    obtain ⟨ihLen, ihGet⟩ := ih
    by_cases hc : (vals.any fun it => (entryVals e).any fun ev => evEq it ev)
    · cases hat : e.apply_tokens vals with
      | mk e' err =>
        cases err with
        | none =>
          have hloop : pairLoop vals (e :: rest)
              = ((e' :: (pairLoop vals rest).1), (pairLoop vals rest).2) := by
            conv_lhs => rw [pairLoop]
            rw [hc, if_pos rfl, hat]
          rw [hloop]
          refine ⟨by simp [ihLen], ?_⟩
          intro i c hci
          cases i with
          | zero =>
            simp only [List.get?_cons_zero, Option.some.injEq] at hci
            subst hci
            refine ⟨fun hns => ?_, fun hs _ => ?_⟩
            · rw [hns] at hc
              cases hc
            · simp only [List.get?_cons_zero, Option.some.injEq]
              rw [hat]
          | succ j =>
            simp only [List.get?_cons_succ] at hci ⊢
            exact ihGet j c hci
        | some err =>
          have hloop : pairLoop vals (e :: rest)
              = ((e' :: rest), some err) := by
            conv_lhs => rw [pairLoop]
            rw [hc, if_pos rfl, hat]
          rw [hloop]
          refine ⟨by simp, ?_⟩
          intro i c hci
          cases i with
          | zero =>
            simp only [List.get?_cons_zero, Option.some.injEq] at hci
            subst hci
            refine ⟨fun hns => ?_, fun _ hnone => ?_⟩
            · rw [hns] at hc
              cases hc
            · cases hnone
          | succ j =>
            simp only [List.get?_cons_succ] at hci ⊢
            refine ⟨fun _ => hci, fun _ hnone => ?_⟩
            cases hnone
    · have hcf : (vals.any fun it => (entryVals e).any fun ev => evEq it ev)
          = false := by
        simpa using hc
      have hloop : pairLoop vals (e :: rest)
          = ((e :: (pairLoop vals rest).1), (pairLoop vals rest).2) := by
        conv_lhs => rw [pairLoop]
        rw [hcf]
        simp only [Bool.false_eq_true, if_false]
      rw [hloop]
      refine ⟨by simp [ihLen], ?_⟩
      intro i c hci
      cases i with
      | zero =>
        simp only [List.get?_cons_zero, Option.some.injEq] at hci
        subst hci
        refine ⟨fun _ => rfl, fun hs => ?_⟩
        · rw [hs] at hcf
          cases hcf
      | succ j =>
        simp only [List.get?_cons_succ] at hci ⊢
        exact ihGet j c hci

/-- Claim C7 as amended: for a non-unique pairing entry, a candidate
receives the broadcast of all of the entry's items (via `apply_tokens`)
exactly when some stored Data Item of the entry compares equal — type and
value, the program's own item equality — to a stored item of the
candidate; sharing a bare value under a different type does not trigger
the broadcast (the counterexample), and a candidate sharing no item is
left unchanged. -/
theorem apply_pairing_broadcast (e : DataEntry) (es : List DataEntry)
    (hu : e.unique = false) :
    ((e.apply_pairing es).1).length = es.length
    ∧ ∀ (i : Nat) (c : DataEntry), es.get? i = some c →
        (sharesItem e c = false →
          ((e.apply_pairing es).1).get? i = some c)
        ∧ (sharesItem e c = true →
          (e.apply_pairing es).2 = none →
          ((e.apply_pairing es).1).get? i
            = some (c.apply_tokens (entryVals e)).1) := by
  have hpp : e.apply_pairing es = pairLoop (entryVals e) es := by
    unfold DataEntry.apply_pairing
    rw [hu]
    rfl
  rw [hpp]
  obtain ⟨hlen, hget⟩ := pairLoop_char (entryVals e) es
  exact ⟨hlen, hget⟩

/-- Witness for the amended C7: the class-name/class-id entry is broadcast
onto the candidate sharing the CLASS_NAME cat item and leaves the
unrelated candidate unchanged. -/
theorem apply_pairing_broadcast_wit :
    ((entryBroadE.apply_pairing [entryBroadC, entryBroadN]).1).length = 2
    ∧ ((entryBroadE.apply_pairing [entryBroadC, entryBroadN]).1).get? 0
        = some (entryBroadC.apply_tokens (entryVals entryBroadE)).1
    ∧ ((entryBroadE.apply_pairing [entryBroadC, entryBroadN]).1).get? 1
        = some entryBroadN := by
  obtain ⟨hlen, hget⟩ :=
    apply_pairing_broadcast entryBroadE [entryBroadC, entryBroadN] rfl
  refine ⟨hlen, ?_, ?_⟩
  · exact (hget 0 entryBroadC rfl).2 rfl rfl
  · exact (hget 1 entryBroadN rfl).1 rfl

theorem unique_identifiers_eq : unique_identifiers = identityTypesSpec := rfl

theorem scan_eq_spec (hms : List (String × ValueMap)) (e : DataEntry) :
    ∀ ts : List DataType,
      scanIdentifiers hms e ts = specFirstMatch hms e ts := by
  intro ts
  induction ts with
  | nil => rfl
  | cons t rest ih =>
    simp only [scanIdentifiers, specFirstMatch]
    cases hg : dget e.data t.desc with
    | none => exact ih
    | some v =>
      cases v with
      | one item =>
        simp only [evTruthy, if_true]
        cases vget (hmget hms t.desc) item.value with
        | some i => rfl
        | none => exact ih
      | many xs =>
        by_cases ht : xs.isEmpty
        · simp only [evTruthy, ht, Bool.not_true, Bool.false_eq_true,
            if_false]
          exact ih
        · simp only [Bool.not_eq_true] at ht
          simp only [evTruthy, ht, Bool.not_false, if_true]

theorem indexEntries_eq_spec (desc : String) :
    ∀ (l : List DataEntry) (i : Nat) (m : ValueMap),
      indexEntries desc (List.enumFrom i l) m = specIndexBase desc i l m := by
  intro l
  induction l with
  | nil => intro i m; rfl
  | cons e rest ih =>
    intro i m
    show indexEntries desc ((i, e) :: List.enumFrom (i + 1) rest) m
      = specIndexBase desc i (e :: rest) m
    simp only [indexEntries, specIndexBase]
    cases hg : dget e.data desc with
    | none => exact ih (i + 1) m
    | some v =>
      cases v with
      | one item =>
        simp only [evTruthy, if_true]
        exact ih (i + 1) (vset m item.value i)
      | many xs =>
        by_cases ht : xs.isEmpty
        · simp only [evTruthy, ht, Bool.not_true, Bool.false_eq_true,
            if_false]
          exact ih (i + 1) m
        · simp only [Bool.not_eq_true] at ht
          simp only [evTruthy, ht, Bool.not_false, if_true]

theorem buildHashmaps_eq_spec (base : List DataEntry) :
    ∀ ts : List DataType,
      buildHashmaps base.enum ts = specLookups base ts := by
  intro ts
  induction ts with
  | nil => rfl
  | cons t rest ih =>
    simp only [buildHashmaps, specLookups]
    rw [show base.enum = List.enumFrom 0 base from rfl,
      indexEntries_eq_spec t.desc base 0 []]
    cases hsi : specIndexBase t.desc 0 base [] with
    | error err => rfl
    | ok m =>
      have ih' : buildHashmaps (List.enumFrom 0 base) rest
          = specLookups base rest := by
        rw [show List.enumFrom 0 base = base.enum from rfl]
        exact ih
      rw [ih']

theorem mem_vset_snd (k : PyVal) (i : Nat) :
    ∀ m : ValueMap, ∀ p ∈ vset m k i, p.2 = i ∨ p ∈ m := by
  intro m
  induction m with
  | nil =>
    intro p hp
    simp [vset] at hp
    left
    rw [hp]
  | cons q rest ih =>
    intro p hp
    obtain ⟨k0, i0⟩ := q
    by_cases hb : pvBeq k0 k
    · simp only [vset, hb, if_true] at hp
      rcases List.mem_cons.mp hp with h | h
      · left; rw [h]
      · right; exact List.mem_cons_of_mem _ h
    · simp only [Bool.not_eq_true] at hb
      simp only [vset, hb, Bool.false_eq_true, if_false] at hp
      rcases List.mem_cons.mp hp with h | h
      · right; rw [h]; exact List.mem_cons_self _ _
      · rcases ih p h with h2 | h2
        · left; exact h2
        · right; exact List.mem_cons_of_mem _ h2

theorem vget_mem :
    ∀ (m : ValueMap) (k : PyVal) (i : Nat), vget m k = some i →
      ∃ k', (k', i) ∈ m := by
  intro m
  induction m with
  | nil => intro k i h; simp [vget] at h
  | cons q rest ih =>
    intro k i h
    obtain ⟨k0, i0⟩ := q
    by_cases hb : pvBeq k0 k
    · simp only [vget, hb, if_true, Option.some.injEq] at h
      exact ⟨k0, by rw [h]; exact List.mem_cons_self _ _⟩
    · simp only [Bool.not_eq_true] at hb
      simp only [vget, hb, Bool.false_eq_true, if_false] at h
      obtain ⟨k', hk⟩ := ih k i h
      exact ⟨k', List.mem_cons_of_mem _ hk⟩

theorem hmget_bound (n : Nat) :
    ∀ lks : List (String × ValueMap),
      (∀ q ∈ lks, ∀ p ∈ q.2, p.2 < n) →
      ∀ d : String, ∀ p ∈ hmget lks d, p.2 < n := by
  intro lks
  induction lks with
  | nil => intro _ d p hp; simp [hmget] at hp
  | cons q rest ih =>
    intro hb d p hp
    obtain ⟨k0, m0⟩ := q
    by_cases hk : k0 == d
    · simp only [hmget, hk, if_true] at hp
      exact hb (k0, m0) (List.mem_cons_self _ _) p hp
    · simp only [Bool.not_eq_true] at hk
      simp only [hmget, hk, Bool.false_eq_true, if_false] at hp
      exact ih (fun q hq => hb q (List.mem_cons_of_mem _ hq)) d p hp

theorem specIndexBase_bound (desc : String) :
    ∀ (l : List DataEntry) (i0 : Nat) (m m' : ValueMap),
      specIndexBase desc i0 l m = .ok m' →
      (∀ p ∈ m, p.2 < i0 + l.length) →
      ∀ p ∈ m', p.2 < i0 + l.length := by
  intro l
  induction l with
  | nil =>
    intro i0 m m' h hb p hp
    have h2 : Except.ok (ε := PyErr) m = Except.ok m' := h
    injection h2 with h3
    rw [← h3] at hp
    exact hb p hp
  | cons e rest ih =>
    intro i0 m m' h hb
    have hlen : i0 + (e :: rest).length = (i0 + 1) + rest.length := by
      simp [List.length_cons]
      omega
    rw [hlen] at hb ⊢
    cases hg : dget e.data desc with
    | none =>
      have h2 : specIndexBase desc (i0 + 1) rest m = .ok m' := by
        rw [← h]
        conv_rhs => rw [specIndexBase]
        rw [hg]
      exact ih (i0 + 1) m m' h2 hb
    | some v =>
      cases v with
      | one item =>
        have h2 : specIndexBase desc (i0 + 1) rest (vset m item.value i0)
            = .ok m' := by
          rw [← h]
          conv_rhs => rw [specIndexBase]
          rw [hg]
          rfl
        refine ih (i0 + 1) _ m' h2 ?_
        intro p hp
        rcases mem_vset_snd item.value i0 m p hp with h3 | h3
        · omega
        · exact hb p h3
      | many xs =>
        by_cases ht : xs.isEmpty
        · have h2 : specIndexBase desc (i0 + 1) rest m = .ok m' := by
            rw [← h]
            conv_rhs => rw [specIndexBase]
            rw [hg]
            simp [evTruthy, ht]
          exact ih (i0 + 1) m m' h2 hb
        · exfalso
          simp only [Bool.not_eq_true] at ht
          rw [specIndexBase] at h
          rw [hg] at h
          simp [evTruthy, ht] at h

theorem specLookups_bound (base : List DataEntry) :
    ∀ (ts : List DataType) (lks : List (String × ValueMap)),
      specLookups base ts = .ok lks →
      ∀ q ∈ lks, ∀ p ∈ q.2, p.2 < base.length := by
  intro ts
  induction ts with
  | nil =>
    intro lks h q hq
    have h2 : Except.ok (ε := PyErr) [] = Except.ok lks := h
    injection h2 with h3
    rw [← h3] at hq
    simp at hq
  | cons t rest ih =>
    intro lks h q hq
    cases hsi : specIndexBase t.desc 0 base [] with
    | error err =>
      rw [specLookups, hsi] at h
      simp [Bind.bind, Except.bind] at h
    | ok m =>
      cases hsl : specLookups base rest with
      | error err =>
        rw [specLookups, hsi, hsl] at h
        simp [Bind.bind, Except.bind] at h
      | ok ms =>
        rw [specLookups, hsi, hsl] at h
        have h2 : Except.ok (ε := PyErr) ((t.desc, m) :: ms)
            = Except.ok lks := h
        injection h2 with h3
        rw [← h3] at hq
        rcases List.mem_cons.mp hq with hh | hh
        · intro p hp
          rw [hh] at hp
          have := specIndexBase_bound t.desc base 0 [] m hsi
            (by intro p hp2; simp at hp2)
          simpa using this p hp
        · exact ih ms hsl q hh

theorem specFirstMatch_bound (lks : List (String × ValueMap)) (e : DataEntry)
    (n : Nat) (hb : ∀ q ∈ lks, ∀ p ∈ q.2, p.2 < n) :
    ∀ (ts : List DataType) (i : Nat),
      specFirstMatch lks e ts = .ok (some i) → i < n := by
  intro ts
  induction ts with
  | nil =>
    intro i h
    have h2 : Except.ok (ε := PyErr) (none : Option Nat)
        = Except.ok (some i) := h
    injection h2 with h3
    cases h3
  | cons t rest ih =>
    intro i h
    cases hg : dget e.data t.desc with
    | none =>
      refine ih i ?_
      rw [← h]
      conv_rhs => rw [specFirstMatch]
      rw [hg]
    | some v =>
      cases v with
      | one item =>
        cases hv : vget (hmget lks t.desc) item.value with
        | some j =>
          have h2 : Except.ok (ε := PyErr) (some j)
              = Except.ok (some i) := by
            rw [← h]
            conv_rhs => rw [specFirstMatch]
            rw [hg]
            show Except.ok (some j)
              = (match vget (hmget lks t.desc) item.value with
                 | some i => Except.ok (some i)
                 | none => specFirstMatch lks e rest)
            rw [hv]
          injection h2 with h3
          injection h3 with h4
          obtain ⟨k', hmem⟩ := vget_mem _ item.value j hv
          have := hmget_bound n lks hb t.desc (k', j) hmem
          omega
        | none =>
          refine ih i ?_
          rw [← h]
          conv_rhs => rw [specFirstMatch]
          rw [hg]
          show specFirstMatch lks e rest
            = (match vget (hmget lks t.desc) item.value with
               | some i => Except.ok (some i)
               | none => specFirstMatch lks e rest)
          rw [hv]
      | many xs =>
        by_cases ht : xs.isEmpty
        · refine ih i ?_
          rw [← h]
          conv_rhs => rw [specFirstMatch]
          rw [hg]
          simp [evTruthy, ht]
        · exfalso
          simp only [Bool.not_eq_true] at ht
          rw [specFirstMatch, hg] at h
          simp [evTruthy, ht] at h

theorem processSecond_cons_err (lks : List (String × ValueMap))
    (data extra rest : List DataEntry) (e : DataEntry) (err : PyErr)
    (h : scanIdentifiers lks e unique_identifiers = .error err) :
    processSecond lks data extra (e :: rest) = .error err := by
  conv_lhs => rw [processSecond]
  rw [h]
  rfl

theorem processSecond_cons_merge (lks : List (String × ValueMap))
    (data extra rest : List DataEntry) (e : DataEntry) (i : Nat)
    (target merged : DataEntry)
    (hs : scanIdentifiers lks e unique_identifiers = .ok (some i))
    (hdg : data.get? i = some target)
    (hm : target.merge e = (merged, none)) :
    processSecond lks data extra (e :: rest)
      = processSecond lks (data.set i merged) extra rest := by
  conv_lhs => rw [processSecond]
  rw [hs]
  show (match data.get? i with
    | some target =>
      (match target.merge e with
       | (merged, none) => processSecond lks (data.set i merged) extra rest
       | (_, some err) => Except.error err)
    | none => Except.error PyErr.attrMissing) = _
  rw [hdg]
  show (match target.merge e with
    | (merged, none) => processSecond lks (data.set i merged) extra rest
    | (_, some err) => Except.error err) = _
  rw [hm]

theorem processSecond_cons_fail (lks : List (String × ValueMap))
    (data extra rest : List DataEntry) (e : DataEntry) (i : Nat)
    (target m' : DataEntry) (err : PyErr)
    (hs : scanIdentifiers lks e unique_identifiers = .ok (some i))
    (hdg : data.get? i = some target)
    (hm : target.merge e = (m', some err)) :
    processSecond lks data extra (e :: rest) = .error err := by
  conv_lhs => rw [processSecond]
  rw [hs]
  show (match data.get? i with
    | some target =>
      (match target.merge e with
       | (merged, none) => processSecond lks (data.set i merged) extra rest
       | (_, some err) => Except.error err)
    | none => Except.error PyErr.attrMissing) = _
  rw [hdg]
  show (match target.merge e with
    | (merged, none) => processSecond lks (data.set i merged) extra rest
    | (_, some err) => Except.error err) = _
  rw [hm]

theorem processSecond_cons_skip (lks : List (String × ValueMap))
    (data extra rest : List DataEntry) (e : DataEntry)
    (hs : scanIdentifiers lks e unique_identifiers = .ok none) :
    processSecond lks data extra (e :: rest)
      = processSecond lks data (extra ++ [e]) rest := by
  conv_lhs => rw [processSecond]
  rw [hs]
  rfl

theorem specProcess_cons_err (lks : List (String × ValueMap))
    (res rest : List DataEntry) (e : DataEntry) (err : PyErr)
    (h : specFirstMatch lks e identityTypesSpec = .error err) :
    specProcess lks res (e :: rest) = .error err := by
  conv_lhs => rw [specProcess]
  rw [h]
  rfl

theorem specProcess_cons_merge (lks : List (String × ValueMap))
    (res rest : List DataEntry) (e : DataEntry) (i : Nat)
    (target merged : DataEntry)
    (hs : specFirstMatch lks e identityTypesSpec = .ok (some i))
    (hdg : res.get? i = some target)
    (hm : target.merge e = (merged, none)) :
    specProcess lks res (e :: rest)
      = specProcess lks (res.set i merged) rest := by
  conv_lhs => rw [specProcess]
  rw [hs]
  show (match res.get? i with
    | some target =>
      (match target.merge e with
       | (merged, none) => specProcess lks (res.set i merged) rest
       | (_, some err) => Except.error err)
    | none => Except.error PyErr.attrMissing) = _
  rw [hdg]
  show (match target.merge e with
    | (merged, none) => specProcess lks (res.set i merged) rest
    | (_, some err) => Except.error err) = _
  rw [hm]

theorem specProcess_cons_fail (lks : List (String × ValueMap))
    (res rest : List DataEntry) (e : DataEntry) (i : Nat)
    (target m' : DataEntry) (err : PyErr)
    (hs : specFirstMatch lks e identityTypesSpec = .ok (some i))
    (hdg : res.get? i = some target)
    (hm : target.merge e = (m', some err)) :
    specProcess lks res (e :: rest) = .error err := by
  conv_lhs => rw [specProcess]
  rw [hs]
  show (match res.get? i with
    | some target =>
      (match target.merge e with
       | (merged, none) => specProcess lks (res.set i merged) rest
       | (_, some err) => Except.error err)
    | none => Except.error PyErr.attrMissing) = _
  rw [hdg]
  show (match target.merge e with
    | (merged, none) => specProcess lks (res.set i merged) rest
    | (_, some err) => Except.error err) = _
  rw [hm]

theorem specProcess_cons_skip (lks : List (String × ValueMap))
    (res rest : List DataEntry) (e : DataEntry)
    (hs : specFirstMatch lks e identityTypesSpec = .ok none) :
    specProcess lks res (e :: rest) = specProcess lks (res ++ [e]) rest := by
  conv_lhs => rw [specProcess]
  rw [hs]
  rfl

theorem process_eq_spec (lks : List (String × ValueMap)) (n : Nat)
    (hb : ∀ q ∈ lks, ∀ p ∈ q.2, p.2 < n) :
    ∀ (sec data extra : List DataEntry), data.length = n →
      processSecond lks data extra sec
        = specProcess lks (data ++ extra) sec := by
  intro sec
  induction sec with
  | nil => intro data extra hlen; rfl
  | cons e rest ih =>
    intro data extra hlen
    have hscan : scanIdentifiers lks e unique_identifiers
        = specFirstMatch lks e identityTypesSpec := by
      rw [scan_eq_spec lks e unique_identifiers, unique_identifiers_eq]
    cases hs : specFirstMatch lks e identityTypesSpec with
    | error err =>
      rw [processSecond_cons_err lks data extra rest e err
        (hscan.trans hs)]
      rw [specProcess_cons_err lks (data ++ extra) rest e err hs]
    | ok oi =>
      cases oi with
      | none =>
        rw [processSecond_cons_skip lks data extra rest e
          (hscan.trans hs)]
        rw [specProcess_cons_skip lks (data ++ extra) rest e hs]
        rw [ih data (extra ++ [e]) hlen]
        rw [List.append_assoc]
      | some i =>
        have hi : i < n :=
          specFirstMatch_bound lks e n hb identityTypesSpec i hs
        have hilt : i < data.length := by omega
        have hdg : data.get? i = some (data.get ⟨i, hilt⟩) :=
          List.get?_eq_get hilt
        have hdg2 : (data ++ extra).get? i = some (data.get ⟨i, hilt⟩) := by
          rw [List.get?_append hilt]
          exact hdg
        cases hm : (data.get ⟨i, hilt⟩).merge e with
        | mk merged errOpt =>
          cases errOpt with
          | none =>
            rw [processSecond_cons_merge lks data extra rest e i _ merged
              (hscan.trans hs) hdg hm]
            rw [specProcess_cons_merge lks (data ++ extra) rest e i _ merged
              hs hdg2 hm]
            rw [List.set_append_left i merged hilt]
            refine ih (data.set i merged) extra ?_
            rw [List.length_set]
            exact hlen
          | some err =>
            rw [processSecond_cons_fail lks data extra rest e i _ merged err
              (hscan.trans hs) hdg hm]
            rw [specProcess_cons_fail lks (data ++ extra) rest e i _ merged
              err hs hdg2 hm]

/-- Claim C1: `merge_lists` coincides, on every pair of entry lists, with
the transcription of the specification's narration: the identity types are
exactly the registered Unique-kind Data Types in fixed registry declaration
order (ABSOLUTE_FILE, RELATIVE_FILE, IMAGE_NAME, IMAGE_ID); one per-type
lookup from value to holding entry is built by indexing only the entries of
base, a later base entry winning a shared slot; each entry of incoming is
merged into the base entry found under the first identity type, in that
order, whose (truthy) value for the entry is present in that type's lookup,
scanning stopping at that first match; and an entry matching no identity
type is appended to the result in its incoming order. -/
theorem merge_lists_refines_spec (first second : List DataEntry) :
    merge_lists first second = merge_lists_spec first second := by
  unfold merge_lists merge_lists_spec
  rw [buildHashmaps_eq_spec first unique_identifiers, unique_identifiers_eq]
  cases hlk : specLookups first identityTypesSpec with
  | error err => rfl
  | ok lks =>
    show processSecond lks first [] second = specProcess lks first second
    have hb := specLookups_bound first identityTypesSpec lks hlk
    have hpe := process_eq_spec lks first.length hb second first [] rfl
    rw [List.append_nil] at hpe
    exact hpe
